import Mathlib

/-
Shallow embedding of the visibility-scoped aggregation engine of the
freelance-business dashboard (src/main.py, src/app/models.py).

Modelling choices:
* Currency amounts and hours (Python floats) are modelled as rationals (ℚ),
  so sums are exact; the claims under study are structural, not about
  floating-point representation.
* The database is a snapshot: four lists of rows (clients, projects,
  time entries, invoices), in the order the persistence layer returns them.
* An SQLAlchemy inner `join(Project)` on the foreign key is modelled by
  pairing each child row with the first project whose id matches its
  project_id, dropping rows with no match (inner-join semantics).
* Python dicts are insertion-ordered association lists; `d[k] = v` updates
  an existing key in place and otherwise appends.
* Python's `sorted` is a stable sort; stable sorting is a unique function
  of the key order, modelled here by a stable insertion sort.
* `datetime.strptime(s, "%Y-%m-%d")` is modelled by `parseDate`, which
  accepts three dash-separated decimal fields forming a valid calendar
  date (with leap years) and fails otherwise.
-/

namespace FreelanceApp

/-- Calendar date (year, month, day). -/
structure SDate where
  year : Nat
  month : Nat
  day : Nat
deriving DecidableEq, Repr

/-- Lexicographic order on dates, as Bool (mirrors SQL date comparison). -/
def dateLe (a b : SDate) : Bool :=
  a.year < b.year ||
    (a.year == b.year &&
      (a.month < b.month || (a.month == b.month && a.day ≤ b.day)))

/-- `date.today().replace(day=1)`: first day of the reference date's month. -/
def startOfMonth (d : SDate) : SDate :=
  { year := d.year, month := d.month, day := 1 }

def isLeap (y : Nat) : Bool :=
  (y % 4 == 0 && y % 100 != 0) || (y % 400 == 0)

def daysInMonth (y m : Nat) : Nat :=
  if m == 1 || m == 3 || m == 5 || m == 7 || m == 8 || m == 10 || m == 12 then 31
  else if m == 4 || m == 6 || m == 9 || m == 11 then 30
  else if m == 2 then (if isLeap y then 29 else 28)
  else 0

/-- Split a character list on the dash character. -/
def splitDash : List Char → List (List Char)
  | [] => [[]]
  | c :: cs =>
      if c = '-' then [] :: splitDash cs
      else
        match splitDash cs with
        | [] => [[c]]
        | g :: gs => (c :: g) :: gs

/-- Parse a nonempty all-digit character list as a decimal number. -/
def digitsToNat : List Char → Option Nat
  | [] => none
  | cs =>
      if cs.all (fun c => c.isDigit) then
        some (cs.foldl (fun n c => n * 10 + (c.toNat - 48)) 0)
      else none

/-- `datetime.strptime(s, "%Y-%m-%d").date()`: three dash-separated decimal
fields forming a valid calendar date; `none` models the ValueError path. -/
def parseDate (s : String) : Option SDate :=
  match (splitDash s.data).map digitsToNat with
  | [some y, some m, some d] =>
      if 1 ≤ m && m ≤ 12 && 1 ≤ d && d ≤ daysInMonth y m && 1 ≤ y then
        some { year := y, month := m, day := d }
      else none
  | _ => none

/-- Zero-pad to two digits, as strftime "%m" does. -/
def pad2 (n : Nat) : String :=
  if n < 10 then "0" ++ toString n else toString n

/-- `issued_date.strftime("%Y-%m")`: the month grouping key. -/
def monthKey (d : SDate) : String :=
  toString d.year ++ "-" ++ pad2 d.month

/-- models.User: role is a plain string; client_id is nullable. -/
structure User where
  id : Nat
  username : String
  role : String
  client_id : Option Nat
deriving DecidableEq, Repr

/-- models.Client. -/
structure Client where
  id : Nat
  name : String
  email : String
deriving DecidableEq, Repr

/-- models.Project. `client_id` is always populated in this system (projects
are only created by the seed routine, which always sets it). -/
structure Project where
  id : Nat
  name : String
  status : String
  deadline : SDate
  budget : ℚ
  client_id : Nat
deriving DecidableEq, Repr

/-- models.TimeEntry. -/
structure TimeEntry where
  id : Nat
  project_id : Nat
  date : SDate
  hours : ℚ
  description : String
deriving DecidableEq, Repr

/-- models.Invoice. -/
structure Invoice where
  id : Nat
  project_id : Nat
  amount : ℚ
  issued_date : SDate
  status : String
deriving DecidableEq, Repr

/-- A snapshot of the four collections, in persistence-layer order. -/
structure DB where
  clients : List Client
  projects : List Project
  time_entries : List TimeEntry
  invoices : List Invoice
deriving DecidableEq, Repr

/-! ### Python dict as insertion-ordered association list -/

/-- `d[k] = v`: update an existing key in place, else append. -/
def dictSet {α β : Type} [DecidableEq α] : List (α × β) → α → β → List (α × β)
  | [], k, v => [(k, v)]
  | (k₀, v₀) :: rest, k, v =>
      if k₀ = k then (k, v) :: rest else (k₀, v₀) :: dictSet rest k v

/-- `d.get(k, dflt)`. -/
def dictGetD {α β : Type} [DecidableEq α] : List (α × β) → α → β → β
  | [], _, dflt => dflt
  | (k₀, v₀) :: rest, k, dflt => if k₀ = k then v₀ else dictGetD rest k dflt

/-- `d[k] = d.get(k, 0) + v`: the accumulation step used by the views. -/
def incKey {α : Type} [DecidableEq α] (m : List (α × ℚ)) (k : α) (v : ℚ) :
    List (α × ℚ) :=
  dictSet m k (dictGetD m k 0 + v)

/-! ### Stable sort (model of Python `sorted` / SQL ORDER BY) -/

/-- Insert `x` before the first element it may precede (stable). -/
def sinsert {α : Type} (le : α → α → Bool) (x : α) : List α → List α
  | [] => [x]
  | y :: ys => if le x y then x :: y :: ys else y :: sinsert le x ys

/-- Stable insertion sort: `le x y` means `x` may be placed before `y`. -/
def ssort {α : Type} (le : α → α → Bool) : List α → List α
  | [] => []
  | x :: xs => sinsert le x (ssort le xs)

/-! ### Joins and visibility scoping -/

/-- `db.query(TimeEntry).join(Project)`: each entry paired with its project;
entries whose project_id matches no project row are dropped (inner join). -/
def joinEntries (ps : List Project) (es : List TimeEntry) :
    List (TimeEntry × Project) :=
  es.filterMap fun e => (ps.find? fun p => p.id == e.project_id).map fun p => (e, p)

/-- `db.query(Invoice).join(Project)`. -/
def joinInvoices (ps : List Project) (is_ : List Invoice) :
    List (Invoice × Project) :=
  is_.filterMap fun i => (ps.find? fun p => p.id == i.project_id).map fun p => (i, p)

/-- The visibility scope predicate of the spec's Scope Resolver, as the code
realises it: clients see only projects matching their linked client id
(`Project.client_id == user.client_id`, `None` matching nothing since project
client ids are never NULL); every other role sees everything. -/
def scopeB (u : User) (p : Project) : Bool :=
  if u.role == "client" then some p.client_id == u.client_id else true

/-- Conditional client filter as each query in main.py applies it. -/
def clientFilterP (u : User) (q : List Project) : List Project :=
  if u.role == "client" then q.filter (fun p => some p.client_id == u.client_id)
  else q

def clientFilterE (u : User) (q : List (TimeEntry × Project)) :
    List (TimeEntry × Project) :=
  if u.role == "client" then q.filter (fun ep => some ep.2.client_id == u.client_id)
  else q

def clientFilterI (u : User) (q : List (Invoice × Project)) :
    List (Invoice × Project) :=
  if u.role == "client" then q.filter (fun ip => some ip.2.client_id == u.client_id)
  else q

/-- Comparator of ORDER BY `TimeEntry.date DESC`: `a` may precede `b` iff
`a`'s date is at least `b`'s. -/
def dateDescLe (a b : TimeEntry × Project) : Bool :=
  dateLe b.1.date a.1.date

/-- Comparator of `sorted(..., key=lambda x: x[1], reverse=True)`: `a` may
precede `b` iff `a`'s amount is at least `b`'s. -/
def amtLe (a b : String × ℚ) : Bool :=
  decide (b.2 ≤ a.2)

/-- Python string `<`: lexicographic comparison of the character lists. -/
def charListLt : List Char → List Char → Bool
  | [], [] => false
  | [], _ :: _ => true
  | _ :: _, [] => false
  | a :: as, b :: bs => a.val < b.val || (a = b && charListLt as bs)

def strLt (a b : String) : Bool :=
  charListLt a.data b.data

/-- The ordering asserted of `top_clients`: total strictly descending, ties
broken by client name ascending (checked on adjacent elements). -/
def c3OrderedB : List (String × ℚ) → Bool
  | [] => true
  | [_] => true
  | a :: b :: rest =>
      (decide (b.2 < a.2) || (decide (a.2 = b.2) && strLt a.1 b.1)) &&
        c3OrderedB (b :: rest)

/-! ### Dashboard (main.py `dashboard`, lines 86–142) -/

/-- The active-projects query: status filter, then the client filter. -/
def dashActiveProjects (db : DB) (u : User) : List Project :=
  clientFilterP u (db.projects.filter (fun p => p.status == "active"))

/-- The scoped TimeEntry⋈Project query of the dashboard. -/
def dashTimeScoped (db : DB) (u : User) : List (TimeEntry × Project) :=
  clientFilterE u (joinEntries db.projects db.time_entries)

/-- `month_hours`: scoped entries with `date >= start_of_month`. -/
def dashMonthEntries (db : DB) (u : User) (today : SDate) :
    List (TimeEntry × Project) :=
  (dashTimeScoped db u).filter fun ep => dateLe (startOfMonth today) ep.1.date

/-- `total_hours = sum(t.hours for t in month_hours)` (unrounded). -/
def dashTotalHoursRaw (db : DB) (u : User) (today : SDate) : ℚ :=
  ((dashMonthEntries db u today).map fun ep => ep.1.hours).sum

/-- Pending invoices query: paid-status filter `in ["draft","sent"]`, then
the client filter. -/
def dashPendingInvoices (db : DB) (u : User) : List (Invoice × Project) :=
  clientFilterI u ((joinInvoices db.projects db.invoices).filter
    fun ip => ip.1.status == "draft" || ip.1.status == "sent")

/-- Paid invoices query: `status == "paid"`, then the client filter. -/
def dashPaidInvoices (db : DB) (u : User) : List (Invoice × Project) :=
  clientFilterI u ((joinInvoices db.projects db.invoices).filter
    fun ip => ip.1.status == "paid")

/-- Round-half-to-even to an integer (Python `round` semantics on exact
values). -/
def roundHalfEven (q : ℚ) : ℤ :=
  let f : ℤ := ⌊q⌋
  let r : ℚ := q - f
  if r < 1/2 then f
  else if 1/2 < r then f + 1
  else if f % 2 = 0 then f else f + 1

/-- `round(x, 1)`: round to one decimal place. -/
def round1 (q : ℚ) : ℚ := (roundHalfEven (q * 10) : ℚ) / 10

/-- The template context produced by the dashboard route. -/
structure DashboardSummary where
  active_projects : Nat
  total_hours : ℚ
  pending_invoices : Nat
  total_earned : ℚ
deriving DecidableEq, Repr

/-- main.py `dashboard` (lines 86–142): counts and sums over the scoped
queries; the hours total is rounded to one decimal for the template. -/
def dashboard (db : DB) (u : User) (today : SDate) : DashboardSummary :=
  { active_projects := (dashActiveProjects db u).length
    total_hours := round1 (dashTotalHoursRaw db u today)
    pending_invoices := (dashPendingInvoices db u).length
    total_earned := ((dashPaidInvoices db u).map fun ip => ip.1.amount).sum }

/-! ### Time-log view (main.py `time_logs`, lines 156–199) -/

/-- The time-log query: join, client filter, ORDER BY date DESC (stable). -/
def timeLogQuery (db : DB) (u : User) : List (TimeEntry × Project) :=
  ssort dateDescLe (clientFilterE u (joinEntries db.projects db.time_entries))

/-- The template context produced by the time-log route. -/
structure TimeLogView where
  entries : List (TimeEntry × Project)
  projects_for_form : List Project
  project_totals : List (Nat × ℚ)
deriving DecidableEq, Repr

/-- main.py `time_logs` (lines 156–199): the visible entries sorted by date
descending, the active projects offered in the add form (admin/freelancer
only), and the per-project running totals accumulated entry by entry. -/
def time_logs (db : DB) (u : User) : TimeLogView :=
  { entries := timeLogQuery db u
    projects_for_form :=
      if u.role == "admin" || u.role == "freelancer" then
        db.projects.filter (fun p => p.status == "active")
      else []
    project_totals :=
      (timeLogQuery db u).foldl (fun m ep => incKey m ep.2.id ep.1.hours) [] }

/-! ### Write path (main.py `add_time_log`, lines 201–222) -/

/-- Outcome of POST /time-logs: a 403 redirect for clients, an uncaught
ValueError from `strptime` on a malformed date, or a successful insert. -/
inductive AddResult where
  | forbidden (db : DB)
  | valueError (db : DB)
  | redirectOk (db : DB)
deriving DecidableEq, Repr

/-- main.py `add_time_log` (lines 201–222): clients are refused with 403;
otherwise the date string is parsed (an unparsable date raises, leaving the
collections untouched) and the new TimeEntry is appended. No validation of
`hours` or of `project_id` is performed. The new row's id stands for the
database-assigned autoincrement key. -/
def add_time_log (db : DB) (u : User) (project_id : Nat) (hours : ℚ)
    (dateStr : String) (descr : String) : AddResult :=
  if u.role == "client" then .forbidden db
  else
    match parseDate dateStr with
    | none => .valueError db
    | some d =>
        .redirectOk { db with
          time_entries := db.time_entries ++
            [{ id := db.time_entries.length + 1, project_id := project_id,
               date := d, hours := hours, description := descr }] }

/-! ### Reports (main.py `reports`, lines 236–279) -/

/-- The scoped TimeEntry⋈Project query of the reports view. -/
def reportTimeScoped (db : DB) (u : User) : List (TimeEntry × Project) :=
  clientFilterE u (joinEntries db.projects db.time_entries)

/-- `hours_data`: per project NAME, accumulated entry by entry. -/
def reportHoursData (db : DB) (u : User) : List (String × ℚ) :=
  (reportTimeScoped db u).foldl (fun m ep => incKey m ep.2.name ep.1.hours) []

/-- The scoped paid-invoice query of the reports view. -/
def reportInvScoped (db : DB) (u : User) : List (Invoice × Project) :=
  clientFilterI u ((joinInvoices db.projects db.invoices).filter
    fun ip => ip.1.status == "paid")

/-- `monthly_data`: paid amounts grouped by "YYYY-MM" of the issue date. -/
def reportMonthlyData (db : DB) (u : User) : List (String × ℚ) :=
  (reportInvScoped db u).foldl
    (fun m ip => incKey m (monthKey ip.1.issued_date) ip.1.amount) []

/-- `sum(i.amount for p in client.projects for i in p.invoices
if i.status == "paid")`. -/
def clientPaidTotal (db : DB) (c : Client) : ℚ :=
  ((((db.projects.filter fun p => p.client_id == c.id).flatMap
      fun p => db.invoices.filter fun i => i.project_id == p.id).filter
        fun i => i.status == "paid").map fun i => i.amount).sum

/-- The `top_clients` dict: populated only for admin/freelancer; a client
enters the dict iff its paid total is positive. -/
def topClientsDict (db : DB) (u : User) : List (String × ℚ) :=
  if u.role == "admin" || u.role == "freelancer" then
    db.clients.foldl
      (fun m c =>
        if 0 < clientPaidTotal db c then dictSet m c.name (clientPaidTotal db c)
        else m) []
  else []

/-- `sorted(top_clients.items(), key=lambda x: x[1], reverse=True)`:
stable sort by amount descending. -/
def topClientsSorted (db : DB) (u : User) : List (String × ℚ) :=
  ssort amtLe (topClientsDict db u)

/-- The template context produced by the reports route. -/
structure ReportView where
  hours_data : List (String × ℚ)
  monthly_data : List (String × ℚ)
  top_clients : List (String × ℚ)
deriving DecidableEq, Repr

/-- main.py `reports` (lines 236–279). -/
def reports (db : DB) (u : User) : ReportView :=
  { hours_data := reportHoursData db u
    monthly_data := reportMonthlyData db u
    top_clients := topClientsSorted db u }

/-! ### Concrete sample data used by witnesses and counterexamples -/

/-- Two clients with the tie-provoking collection order: "Zeta" before
"Alpha". -/
def sampleDB : DB :=
  { clients := [⟨1, "Zeta", "z@x.com"⟩, ⟨2, "Alpha", "a@x.com"⟩]
    projects :=
      [⟨1, "Website Redesign", "active", ⟨2024, 6, 30⟩, 5000, 1⟩,
       ⟨2, "Mobile App MVP", "active", ⟨2024, 7, 15⟩, 12000, 2⟩,
       ⟨3, "SEO Audit", "on-hold", ⟨2024, 5, 20⟩, 1500, 1⟩]
    time_entries :=
      [⟨1, 1, ⟨2024, 5, 3⟩, 3, "Frontend dev"⟩,
       ⟨2, 2, ⟨2024, 4, 28⟩, 2, "Meeting"⟩,
       ⟨3, 1, ⟨2024, 5, 7⟩, (5 : ℚ) / 2, "Backend logic"⟩]
    invoices :=
      [⟨1, 1, 100, ⟨2024, 4, 20⟩, "paid"⟩,
       ⟨2, 2, 100, ⟨2024, 5, 1⟩, "paid"⟩,
       ⟨3, 1, 2500, ⟨2024, 5, 5⟩, "sent"⟩] }

def sampleAdmin : User := ⟨1, "admin", "admin", none⟩

def sampleClientUser : User := ⟨3, "client", "client", some 1⟩

/-- A client-role user whose client link is absent (the data-integrity
anomaly of the spec's ScopeIntegrityError). -/
def sampleOrphanUser : User := ⟨4, "orphan", "client", none⟩

/-! ### Helper lemmas -/

theorem sinsert_perm {α : Type} (le : α → α → Bool) (x : α) (l : List α) :
    (sinsert le x l).Perm (x :: l) := by
  induction l with
  | nil => simp [sinsert]
  | cons y ys ih =>
      by_cases h : le x y
      · simp [sinsert, h]
      · simp only [sinsert, h, if_neg, Bool.not_eq_true]
        exact (ih.cons y).trans (List.Perm.swap x y ys)

theorem ssort_perm {α : Type} (le : α → α → Bool) (l : List α) :
    (ssort le l).Perm l := by
  induction l with
  | nil => simp [ssort]
  | cons x xs ih => exact (sinsert_perm le x (ssort le xs)).trans (ih.cons x)

theorem mem_ssort {α : Type} {le : α → α → Bool} {l : List α} {a : α} :
    a ∈ ssort le l ↔ a ∈ l :=
  (ssort_perm le l).mem_iff

theorem dictSet_of_not_mem {α β : Type} [DecidableEq α]
    {m : List (α × β)} {k : α} (v : β) (h : k ∉ m.map Prod.fst) :
    dictSet m k v = m ++ [(k, v)] := by
  induction m with
  | nil => simp [dictSet]
  | cons kv rest ih =>
      obtain ⟨k₀, v₀⟩ := kv
      simp only [List.map_cons, List.mem_cons, not_or] at h
      simp [dictSet, Ne.symm h.1, ih h.2]

theorem dictGetD_dictSet {α β : Type} [DecidableEq α]
    (m : List (α × β)) (k n : α) (w d : β) :
    dictGetD (dictSet m k w) n d = if k = n then w else dictGetD m n d := by
  induction m with
  | nil => simp [dictSet, dictGetD]
  | cons kv rest ih =>
      obtain ⟨k₀, v₀⟩ := kv
      by_cases h : k₀ = k
      · subst h
        by_cases hn : k₀ = n <;> simp [dictSet, dictGetD, hn]
      · by_cases hn : k₀ = n
        · subst hn
          have : ¬ k = k₀ := fun hc => h hc.symm
          simp [dictSet, dictGetD, h, this]
        · simp [dictSet, dictGetD, h, hn, ih]

theorem dictGetD_incKey {α : Type} [DecidableEq α]
    (m : List (α × ℚ)) (k n : α) (v : ℚ) :
    dictGetD (incKey m k v) n 0 =
      dictGetD m n 0 + (if k = n then v else 0) := by
  unfold incKey
  rw [dictGetD_dictSet]
  by_cases h : k = n
  · subst h; simp
  · simp [h]

theorem sum_snd_dictSet {α : Type} [DecidableEq α]
    (m : List (α × ℚ)) (k : α) (v : ℚ) :
    ((dictSet m k (dictGetD m k 0 + v)).map Prod.snd).sum =
      (m.map Prod.snd).sum + v := by
  induction m with
  | nil => simp [dictSet, dictGetD]
  | cons kv rest ih =>
      obtain ⟨k₀, v₀⟩ := kv
      by_cases h : k₀ = k
      · subst h; simp [dictSet, dictGetD]; ring
      · simp only [dictSet, dictGetD, h, if_neg, if_false, List.map_cons,
          List.sum_cons]
        rw [ih]; ring

theorem sum_snd_incKey {α : Type} [DecidableEq α]
    (m : List (α × ℚ)) (k : α) (v : ℚ) :
    ((incKey m k v).map Prod.snd).sum = (m.map Prod.snd).sum + v :=
  sum_snd_dictSet m k v

theorem mem_fst_dictSet {α β : Type} [DecidableEq α]
    (m : List (α × β)) (k n : α) (w : β) :
    n ∈ (dictSet m k w).map Prod.fst ↔ n ∈ m.map Prod.fst ∨ n = k := by
  induction m with
  | nil => simp [dictSet]
  | cons kv rest ih =>
      obtain ⟨k₀, v₀⟩ := kv
      by_cases h : k₀ = k
      · subst h; by_cases hn : n = k₀ <;> simp [dictSet, hn]
      · simp [dictSet, h, ih]; tauto

theorem sum_snd_fold {α γ : Type} [DecidableEq α] (key : γ → α) (val : γ → ℚ)
    (l : List γ) (m : List (α × ℚ)) :
    ((l.foldl (fun m x => incKey m (key x) (val x)) m).map Prod.snd).sum =
      (m.map Prod.snd).sum + (l.map val).sum := by
  induction l generalizing m with
  | nil => simp
  | cons x xs ih =>
      simp only [List.foldl_cons, List.map_cons, List.sum_cons]
      rw [ih, sum_snd_incKey]; ring

theorem dictGetD_fold {α γ : Type} [DecidableEq α] (key : γ → α) (val : γ → ℚ)
    (l : List γ) (m : List (α × ℚ)) (n : α) :
    dictGetD (l.foldl (fun m x => incKey m (key x) (val x)) m) n 0 =
      dictGetD m n 0 +
        ((l.filter fun x => decide (key x = n)).map val).sum := by
  induction l generalizing m with
  | nil => simp
  | cons x xs ih =>
      simp only [List.foldl_cons]
      rw [ih, dictGetD_incKey]
      by_cases h : key x = n
      · simp [h]; ring
      · simp [h]

theorem mem_fst_fold {α γ : Type} [DecidableEq α] (key : γ → α) (val : γ → ℚ)
    (l : List γ) (m : List (α × ℚ)) (n : α) :
    n ∈ (l.foldl (fun m x => incKey m (key x) (val x)) m).map Prod.fst ↔
      n ∈ m.map Prod.fst ∨ ∃ x ∈ l, key x = n := by
  induction l generalizing m with
  | nil => simp
  | cons x xs ih =>
      simp only [List.foldl_cons]
      rw [ih]
      unfold incKey
      rw [mem_fst_dictSet]
      constructor
      · rintro ((hm | hk) | ⟨x', hx', hk'⟩)
        · exact Or.inl hm
        · exact Or.inr ⟨x, List.mem_cons_self x xs, hk.symm⟩
        · exact Or.inr ⟨x', List.mem_cons_of_mem x hx', hk'⟩
      · rintro (hm | ⟨x', hx', hk⟩)
        · exact Or.inl (Or.inl hm)
        · rcases List.mem_cons.mp hx' with rfl | hx'
          · exact Or.inl (Or.inr hk.symm)
          · exact Or.inr ⟨x', hx', hk⟩

theorem mem_sinsert {α : Type} {le : α → α → Bool} {x a : α} {l : List α} :
    a ∈ sinsert le x l ↔ a = x ∨ a ∈ l := by
  rw [(sinsert_perm le x l).mem_iff, List.mem_cons]

theorem pairwise_sinsert_amt (x : String × ℚ) (l : List (String × ℚ))
    (h : l.Pairwise fun a b => b.2 ≤ a.2) :
    (sinsert amtLe x l).Pairwise fun a b => b.2 ≤ a.2 := by
  induction l with
  | nil => simp [sinsert]
  | cons y ys ih =>
      rcases List.pairwise_cons.mp h with ⟨hy, hys⟩
      by_cases hle : amtLe x y
      · have hxy : y.2 ≤ x.2 := by simpa [amtLe] using hle
        simp only [sinsert, hle, if_pos]
        refine List.Pairwise.cons ?_ h
        intro z hz
        rcases List.mem_cons.mp hz with rfl | hz
        · exact hxy
        · exact le_trans (hy z hz) hxy
      · have hyx : x.2 ≤ y.2 := by
          have hnot : ¬ y.2 ≤ x.2 := by simpa [amtLe] using hle
          exact le_of_not_le hnot
        simp only [sinsert, hle, if_neg, Bool.not_eq_true]
        refine List.Pairwise.cons ?_ (ih hys)
        intro z hz
        rcases mem_sinsert.mp hz with rfl | hz
        · exact hyx
        · exact hy z hz

theorem pairwise_ssort_amt (l : List (String × ℚ)) :
    (ssort amtLe l).Pairwise fun a b => b.2 ≤ a.2 := by
  induction l with
  | nil => simp [ssort]
  | cons x xs ih => exact pairwise_sinsert_amt x _ ih

theorem topFold_eq (db : DB) (cs : List Client) (m : List (String × ℚ))
    (hnodup : (cs.map Client.name).Nodup)
    (hdis : ∀ c ∈ cs, c.name ∉ m.map Prod.fst) :
    cs.foldl (fun m c =>
        if 0 < clientPaidTotal db c then dictSet m c.name (clientPaidTotal db c)
        else m) m =
      m ++ cs.filterMap (fun c =>
        if 0 < clientPaidTotal db c then some (c.name, clientPaidTotal db c)
        else none) := by
  induction cs generalizing m with
  | nil => simp
  | cons c cs ih =>
      simp only [List.map_cons, List.nodup_cons] at hnodup
      by_cases hpos : 0 < clientPaidTotal db c
      · have hm : c.name ∉ m.map Prod.fst := hdis c (by simp)
        simp only [List.foldl_cons, hpos, if_pos, List.filterMap_cons]
        rw [dictSet_of_not_mem _ hm]
        rw [ih _ hnodup.2 ?hd]
        · simp [hpos, List.append_assoc]
        case hd =>
          intro c' hc'
          simp only [List.map_append, List.mem_append, List.map_cons,
            List.map_nil, List.mem_singleton, not_or]
          constructor
          · exact hdis c' (List.mem_cons_of_mem _ hc')
          · intro heq
            exact hnodup.1 (heq ▸ List.mem_map_of_mem Client.name hc')
      · simp only [List.foldl_cons, if_neg hpos]
        rw [ih _ hnodup.2 (fun c' hc' => hdis c' (List.mem_cons_of_mem _ hc'))]
        congr 1
        simp [hpos]

theorem joinEntries_pairing {ps : List Project} {es : List TimeEntry}
    {ep : TimeEntry × Project} (h : ep ∈ joinEntries ps es) :
    ep.2.id = ep.1.project_id := by
  unfold joinEntries at h
  rcases List.mem_filterMap.mp h with ⟨e, _, hmap⟩
  rcases Option.map_eq_some'.mp hmap with ⟨p, hfind, heq⟩
  have hpred := List.find?_some hfind
  cases heq
  simpa using hpred

theorem joinInvoices_pairing {ps : List Project} {is_ : List Invoice}
    {ip : Invoice × Project} (h : ip ∈ joinInvoices ps is_) :
    ip.2.id = ip.1.project_id := by
  unfold joinInvoices at h
  rcases List.mem_filterMap.mp h with ⟨i, _, hmap⟩
  rcases Option.map_eq_some'.mp hmap with ⟨p, hfind, heq⟩
  have hpred := List.find?_some hfind
  cases heq
  simpa using hpred

theorem mem_clientFilterP {u : User} {q : List Project} {p : Project}
    {c : Nat} (hrole : u.role = "client") (hcid : u.client_id = some c)
    (h : p ∈ clientFilterP u q) : p ∈ q ∧ p.client_id = c := by
  unfold clientFilterP at h
  rw [if_pos (by simp [hrole])] at h
  rcases List.mem_filter.mp h with ⟨hq, hcond⟩
  rw [hcid] at hcond
  exact ⟨hq, by simpa using hcond⟩

theorem mem_clientFilterE {u : User} {q : List (TimeEntry × Project)}
    {ep : TimeEntry × Project} {c : Nat} (hrole : u.role = "client")
    (hcid : u.client_id = some c) (h : ep ∈ clientFilterE u q) :
    ep ∈ q ∧ ep.2.client_id = c := by
  unfold clientFilterE at h
  rw [if_pos (by simp [hrole])] at h
  rcases List.mem_filter.mp h with ⟨hq, hcond⟩
  rw [hcid] at hcond
  exact ⟨hq, by simpa using hcond⟩

theorem mem_clientFilterI {u : User} {q : List (Invoice × Project)}
    {ip : Invoice × Project} {c : Nat} (hrole : u.role = "client")
    (hcid : u.client_id = some c) (h : ip ∈ clientFilterI u q) :
    ip ∈ q ∧ ip.2.client_id = c := by
  unfold clientFilterI at h
  rw [if_pos (by simp [hrole])] at h
  rcases List.mem_filter.mp h with ⟨hq, hcond⟩
  rw [hcid] at hcond
  exact ⟨hq, by simpa using hcond⟩

theorem topClients_client_empty (db : DB) (u : User)
    (hrole : u.role = "client") : topClientsSorted db u = [] := by
  unfold topClientsSorted topClientsDict
  simp [hrole, ssort]

/-! ## Claim theorems -/

/-- C4: a client-role caller of the time-entry write operation is refused
(403, modelled as `AddResult.forbidden` carrying the untouched collections),
an outcome distinct from the malformed-input outcome
(`AddResult.valueError`); no TimeEntry is appended. -/
theorem add_time_log_client_refused (db : DB) (u : User) (pid : Nat)
    (hrs : ℚ) (ds descr : String) (hrole : u.role = "client") :
    add_time_log db u pid hrs ds descr = AddResult.forbidden db ∧
      ∀ db' : DB, AddResult.forbidden db ≠ AddResult.valueError db' :=
  ⟨by simp [add_time_log, hrole], fun _ h => AddResult.noConfusion h⟩

/-- Witness for C4 at a concrete client-role call. -/
theorem add_time_log_client_refused_witness :
    sampleClientUser.role = "client" ∧
      (add_time_log sampleDB sampleClientUser 1 2 "2024-05-10" "x" =
          AddResult.forbidden sampleDB ∧
        ∀ db' : DB, AddResult.forbidden sampleDB ≠ AddResult.valueError db') :=
  ⟨rfl,
    add_time_log_client_refused sampleDB sampleClientUser 1 2 "2024-05-10" "x"
      rfl⟩

/-- C10: a successful write (admin or freelancer caller, parsable date)
appends exactly one TimeEntry carrying the submitted fields, and leaves the
Clients, Projects and Invoices collections and all pre-existing TimeEntries
unchanged. -/
theorem add_time_log_frame (db : DB) (u : User) (pid : Nat) (hrs : ℚ)
    (ds descr : String) (d : SDate)
    (hrole : u.role = "admin" ∨ u.role = "freelancer")
    (hparse : parseDate ds = some d) :
    ∃ e : TimeEntry, e.project_id = pid ∧ e.date = d ∧ e.hours = hrs ∧
      e.description = descr ∧
      add_time_log db u pid hrs ds descr = AddResult.redirectOk
        { clients := db.clients, projects := db.projects,
          time_entries := db.time_entries ++ [e], invoices := db.invoices } := by
  refine ⟨⟨db.time_entries.length + 1, pid, d, hrs, descr⟩, rfl, rfl, rfl, rfl, ?_⟩
  have hnc : ¬ u.role = "client" := by
    rcases hrole with h | h <;> simp [h]
  simp [add_time_log, hnc, hparse]

/-- Witness for C10 at a concrete admin-role call. -/
theorem add_time_log_frame_witness :
    (sampleAdmin.role = "admin" ∨ sampleAdmin.role = "freelancer") ∧
      parseDate "2024-05-10" = some ⟨2024, 5, 10⟩ ∧
      ∃ e : TimeEntry, e.project_id = 1 ∧ e.date = (⟨2024, 5, 10⟩ : SDate) ∧
        e.hours = 2 ∧ e.description = "w" ∧
        add_time_log sampleDB sampleAdmin 1 2 "2024-05-10" "w" =
          AddResult.redirectOk
            { clients := sampleDB.clients, projects := sampleDB.projects,
              time_entries := sampleDB.time_entries ++ [e],
              invoices := sampleDB.invoices } :=
  ⟨Or.inl rfl, by decide,
    add_time_log_frame sampleDB sampleAdmin 1 2 "2024-05-10" "w" ⟨2024, 5, 10⟩
      (Or.inl rfl) (by decide)⟩

unseal Nat.gcd Rat.add Rat.mul Rat.inv Rat.sub in
/-- C2 (code_bug): the write path performs none of the validations the spec
requires. Evaluated at concrete inputs: an admin submission with hours = 0
and with an unknown project id are each accepted and appended (no
ValidationError, collection grows), and an unparsable date raises an
uncaught ValueError (modelled `AddResult.valueError`) instead of a
recoverable refusal. -/
theorem add_time_log_missing_validation :
    add_time_log sampleDB sampleAdmin 1 0 "2024-05-10" "work" =
        AddResult.redirectOk
          { sampleDB with time_entries := sampleDB.time_entries ++
              [⟨4, 1, ⟨2024, 5, 10⟩, 0, "work"⟩] } ∧
      (∀ p ∈ sampleDB.projects, p.id ≠ 99) ∧
      add_time_log sampleDB sampleAdmin 99 2 "2024-05-10" "work" =
        AddResult.redirectOk
          { sampleDB with time_entries := sampleDB.time_entries ++
              [⟨4, 99, ⟨2024, 5, 10⟩, 2, "work"⟩] } ∧
      add_time_log sampleDB sampleAdmin 1 2 "not-a-date" "work" =
        AddResult.valueError sampleDB := by
  decide

unseal Nat.gcd Rat.add Rat.mul Rat.inv Rat.sub in
theorem round1_zero : round1 0 = 0 := by decide

theorem filter_filter_and {α : Type} (p q : α → Bool) (l : List α) :
    (l.filter p).filter q = l.filter fun a => p a && q a := by
  induction l with
  | nil => rfl
  | cons x xs ih =>
      by_cases hp : p x
      · by_cases hq : q x <;> simp [hp, hq, ih]
      · simp [hp, ih]

/-- C5: a client-role user with no linked client reference is failed closed:
every scoped view returns an empty or all-zero result, over Projects,
TimeEntries and Invoices alike. -/
theorem scope_fail_closed (db : DB) (u : User) (today : SDate)
    (hrole : u.role = "client") (hcid : u.client_id = none) :
    dashboard db u today =
        { active_projects := 0, total_hours := 0, pending_invoices := 0,
          total_earned := 0 } ∧
      time_logs db u =
        { entries := [], projects_for_form := [], project_totals := [] } ∧
      reports db u =
        { hours_data := [], monthly_data := [], top_clients := [] } := by
  have hfP : ∀ q : List Project, clientFilterP u q = [] := by
    intro q
    simp [clientFilterP, hrole, hcid, List.filter_eq_nil_iff]
  have hfE : ∀ q : List (TimeEntry × Project), clientFilterE u q = [] := by
    intro q
    simp [clientFilterE, hrole, hcid, List.filter_eq_nil_iff]
  have hfI : ∀ q : List (Invoice × Project), clientFilterI u q = [] := by
    intro q
    simp [clientFilterI, hrole, hcid, List.filter_eq_nil_iff]
  refine ⟨?_, ?_, ?_⟩
  · unfold dashboard dashActiveProjects dashTotalHoursRaw dashMonthEntries
      dashTimeScoped dashPendingInvoices dashPaidInvoices
    rw [hfP, hfE, hfI, hfI]
    simp [round1_zero]
  · unfold time_logs timeLogQuery
    rw [hfE]
    simp [ssort, hrole]
  · unfold reports reportHoursData reportMonthlyData reportTimeScoped
      reportInvScoped
    rw [hfE, hfI]
    simpa using topClients_client_empty db u hrole

/-- Witness for C5 at a client-role user whose client link is absent. -/
theorem scope_fail_closed_witness :
    sampleOrphanUser.role = "client" ∧ sampleOrphanUser.client_id = none ∧
      (dashboard sampleDB sampleOrphanUser ⟨2024, 5, 15⟩ =
          { active_projects := 0, total_hours := 0, pending_invoices := 0,
            total_earned := 0 } ∧
        time_logs sampleDB sampleOrphanUser =
          { entries := [], projects_for_form := [], project_totals := [] } ∧
        reports sampleDB sampleOrphanUser =
          { hours_data := [], monthly_data := [], top_clients := [] }) :=
  ⟨rfl, rfl, scope_fail_closed sampleDB sampleOrphanUser ⟨2024, 5, 15⟩ rfl rfl⟩

/-- C7: the month-hours figure is computed as the unrounded sum of hours over
visible entries dated on or after the first of the reference date's month;
rounding to one decimal place happens only in the displayed dashboard
field. -/
theorem month_hours_unrounded (db : DB) (u : User) (today : SDate) :
    dashTotalHoursRaw db u today =
        (((joinEntries db.projects db.time_entries).filter fun ep =>
            scopeB u ep.2 && dateLe (startOfMonth today) ep.1.date).map
          fun ep => ep.1.hours).sum ∧
      (dashboard db u today).total_hours =
        round1 (dashTotalHoursRaw db u today) := by
  refine ⟨?_, rfl⟩
  unfold dashTotalHoursRaw dashMonthEntries dashTimeScoped clientFilterE scopeB
  by_cases h : u.role = "client"
  · simp only [h, if_pos, beq_self_eq_true, if_true]
    rw [filter_filter_and]
  · simp [h]

/-- C6: the values of the running-total map sum to exactly the sum of hours
over the entries listed in the time-log view. -/
theorem running_totals_consistent (db : DB) (u : User) :
    (((time_logs db u).project_totals).map Prod.snd).sum =
      (((time_logs db u).entries).map fun ep => ep.1.hours).sum := by
  have h := sum_snd_fold (fun ep : TimeEntry × Project => ep.2.id)
    (fun ep => ep.1.hours) (timeLogQuery db u) []
  simpa [time_logs] using h

/-- C9: the key set of the running-total map is exactly the set of project
identities occurring in at least one visible entry; projects without visible
entries never appear (no zero-valued keys). -/
theorem running_totals_keys (db : DB) (u : User) (pid : Nat) :
    pid ∈ ((time_logs db u).project_totals).map Prod.fst ↔
      ∃ ep ∈ (time_logs db u).entries, ep.2.id = pid := by
  have h := mem_fst_fold (fun ep : TimeEntry × Project => ep.2.id)
    (fun ep => ep.1.hours) (timeLogQuery db u) [] pid
  simpa [time_logs] using h

/-- C8: the report's hours-by-project map is keyed by the project display
name: each name maps to the sum of hours over all visible entries whose
project bears that name, so same-named projects merge into one key. -/
theorem hours_by_project_name (db : DB) (u : User) (n : String) :
    dictGetD (reports db u).hours_data n 0 =
      (((reportTimeScoped db u).filter fun ep => decide (ep.2.name = n)).map
        fun ep => ep.1.hours).sum := by
  have h := dictGetD_fold (fun ep : TimeEntry × Project => ep.2.name)
    (fun ep => ep.1.hours) (reportTimeScoped db u) [] n
  simpa [reports, reportHoursData, dictGetD] using h

/-- C1: for a client-role user with a linked client reference, every Project
counted, every TimeEntry summed and every Invoice counted or summed by the
dashboard, the time-log view and the report view belongs (via the join
pairing) to a project whose client reference equals the user's; the
top-clients ranking is empty for such a user. -/
theorem client_scope_confinement (db : DB) (u : User) (today : SDate)
    (c : Nat) (hrole : u.role = "client") (hcid : u.client_id = some c) :
    (∀ p ∈ dashActiveProjects db u, p.client_id = c) ∧
      (∀ ep ∈ dashMonthEntries db u today,
        ep.2.id = ep.1.project_id ∧ ep.2.client_id = c) ∧
      (∀ ip ∈ dashPendingInvoices db u,
        ip.2.id = ip.1.project_id ∧ ip.2.client_id = c) ∧
      (∀ ip ∈ dashPaidInvoices db u,
        ip.2.id = ip.1.project_id ∧ ip.2.client_id = c) ∧
      (∀ ep ∈ (time_logs db u).entries,
        ep.2.id = ep.1.project_id ∧ ep.2.client_id = c) ∧
      (∀ ep ∈ reportTimeScoped db u,
        ep.2.id = ep.1.project_id ∧ ep.2.client_id = c) ∧
      (∀ ip ∈ reportInvScoped db u,
        ip.2.id = ip.1.project_id ∧ ip.2.client_id = c) ∧
      (reports db u).top_clients = [] := by
  refine ⟨?_, ?_, ?_, ?_, ?_, ?_, ?_, ?_⟩
  · intro p hp
    exact (mem_clientFilterP hrole hcid hp).2
  · intro ep hep
    unfold dashMonthEntries dashTimeScoped at hep
    have h1 := (List.mem_filter.mp hep).1
    obtain ⟨hj, hc⟩ := mem_clientFilterE hrole hcid h1
    exact ⟨joinEntries_pairing hj, hc⟩
  · intro ip hip
    unfold dashPendingInvoices at hip
    obtain ⟨hf, hc⟩ := mem_clientFilterI hrole hcid hip
    exact ⟨joinInvoices_pairing (List.mem_filter.mp hf).1, hc⟩
  · intro ip hip
    unfold dashPaidInvoices at hip
    obtain ⟨hf, hc⟩ := mem_clientFilterI hrole hcid hip
    exact ⟨joinInvoices_pairing (List.mem_filter.mp hf).1, hc⟩
  · intro ep hep
    have h0 : ep ∈ timeLogQuery db u := hep
    unfold timeLogQuery at h0
    rw [mem_ssort] at h0
    obtain ⟨hj, hc⟩ := mem_clientFilterE hrole hcid h0
    exact ⟨joinEntries_pairing hj, hc⟩
  · intro ep hep
    unfold reportTimeScoped at hep
    obtain ⟨hj, hc⟩ := mem_clientFilterE hrole hcid hep
    exact ⟨joinEntries_pairing hj, hc⟩
  · intro ip hip
    unfold reportInvScoped at hip
    obtain ⟨hf, hc⟩ := mem_clientFilterI hrole hcid hip
    exact ⟨joinInvoices_pairing (List.mem_filter.mp hf).1, hc⟩
  · exact topClients_client_empty db u hrole

/-- Witness for C1 at a concrete client-role user linked to client 1. -/
theorem client_scope_confinement_witness :
    sampleClientUser.role = "client" ∧
      sampleClientUser.client_id = some 1 ∧
      ((∀ p ∈ dashActiveProjects sampleDB sampleClientUser, p.client_id = 1) ∧
        (∀ ep ∈ dashMonthEntries sampleDB sampleClientUser ⟨2024, 5, 15⟩,
          ep.2.id = ep.1.project_id ∧ ep.2.client_id = 1) ∧
        (∀ ip ∈ dashPendingInvoices sampleDB sampleClientUser,
          ip.2.id = ip.1.project_id ∧ ip.2.client_id = 1) ∧
        (∀ ip ∈ dashPaidInvoices sampleDB sampleClientUser,
          ip.2.id = ip.1.project_id ∧ ip.2.client_id = 1) ∧
        (∀ ep ∈ (time_logs sampleDB sampleClientUser).entries,
          ep.2.id = ep.1.project_id ∧ ep.2.client_id = 1) ∧
        (∀ ep ∈ reportTimeScoped sampleDB sampleClientUser,
          ep.2.id = ep.1.project_id ∧ ep.2.client_id = 1) ∧
        (∀ ip ∈ reportInvScoped sampleDB sampleClientUser,
          ip.2.id = ip.1.project_id ∧ ip.2.client_id = 1) ∧
        (reports sampleDB sampleClientUser).top_clients = []) :=
  ⟨rfl, rfl,
    client_scope_confinement sampleDB sampleClientUser ⟨2024, 5, 15⟩ 1 rfl rfl⟩

unseal Nat.gcd Rat.add Rat.mul Rat.inv Rat.sub in
/-- C3 counterexample: with the client collection listing "Zeta" before
"Alpha" and equal paid totals of 100 each, the produced ranking keeps Zeta
first — it is not sorted with ties broken by client name ascending, refuting
the claimed tie-break. -/
theorem top_clients_tiebreak_refuted :
    (reports sampleDB sampleAdmin).top_clients =
        [("Zeta", 100), ("Alpha", 100)] ∧
      c3OrderedB (reports sampleDB sampleAdmin).top_clients = false := by
  decide

/-- C3 (amended): for admin/freelancer callers, top_clients consists of the
clients with a positive paid-invoice total (each mapped to that total),
stably sorted by total descending — ties are kept in the order clients
appear in the client collection, not broken by name; for a client-role
caller it is empty. Client names are assumed distinct (the schema declares
them unique). -/
theorem top_clients_amended (db : DB) (u : User)
    (hnodup : (db.clients.map Client.name).Nodup) :
    ((u.role = "admin" ∨ u.role = "freelancer") →
        (reports db u).top_clients =
            ssort amtLe (db.clients.filterMap fun c =>
              if 0 < clientPaidTotal db c then
                some (c.name, clientPaidTotal db c)
              else none) ∧
          (reports db u).top_clients.Pairwise fun a b => b.2 ≤ a.2) ∧
      (u.role = "client" → (reports db u).top_clients = []) := by
  constructor
  · intro hrole
    constructor
    · show topClientsSorted db u = _
      unfold topClientsSorted topClientsDict
      have hcond : (u.role == "admin" || u.role == "freelancer") = true := by
        rcases hrole with h | h <;> simp [h]
      rw [if_pos hcond]
      rw [topFold_eq db db.clients [] hnodup (by simp)]
      simp
    · show (ssort amtLe (topClientsDict db u)).Pairwise fun a b => b.2 ≤ a.2
      exact pairwise_ssort_amt _
  · exact fun hrole => topClients_client_empty db u hrole

/-- Witness for the amended C3 at the sample data with an admin caller. -/
theorem top_clients_amended_witness :
    (sampleDB.clients.map Client.name).Nodup ∧
      (((sampleAdmin.role = "admin" ∨ sampleAdmin.role = "freelancer") →
          (reports sampleDB sampleAdmin).top_clients =
              ssort amtLe (sampleDB.clients.filterMap fun c =>
                if 0 < clientPaidTotal sampleDB c then
                  some (c.name, clientPaidTotal sampleDB c)
                else none) ∧
            (reports sampleDB sampleAdmin).top_clients.Pairwise
              fun a b => b.2 ≤ a.2) ∧
        (sampleAdmin.role = "client" →
          (reports sampleDB sampleAdmin).top_clients = [])) :=
  ⟨by decide, top_clients_amended sampleDB sampleAdmin (by decide)⟩

end FreelanceApp
